import Mathlib

/-!
Verification of the typed field/schema model of canari's
`src/canari/maltego/message.py`, shallowly embedded in Lean.

The embedding covers the parts of the module the properties below are
about: the `timespan` duration codec, the `Field`/owner tree fragment,
the `StringEntityField` descriptor family (`Enum`, `Integer`, `Date`,
`TimeSpan`, `Regex`/`Color`), and the `EntityField` schema-composer
record.  Python strings are Lean `String`s, Python `None` is modelled
explicitly, machine-independent integers are `Int`/`Nat`, and code that
raises becomes `Except`/`Option`-valued.  Unless a doc comment says
otherwise, every definition is a direct transcription of the Python
source; line numbers refer to `message.py`.
-/

namespace Canari

/-! ### Decimal digit strings

Python renders integers with the `%d` / `%0Nd` conversions and parses
them with `int(...)`.  The helpers below model exactly those decimal
forms.  `natDigitsAux` is fuelled so that it reduces in the kernel; the
fuel `n + 1` always suffices because `n / 10 < n` for `n ≥ 10`.
-/

/-- `True` exactly for the ASCII digits `0`-`9` (the regex class `\d`
with no Unicode flags). -/
def isDigitChar (c : Char) : Bool :=
  decide ('0' ≤ c) && decide (c ≤ '9')

/-- Numeric value of an ASCII digit character. -/
def digitVal (c : Char) : Nat :=
  c.toNat - 48

/-- Left fold turning a digit list into the number it denotes
(most-significant digit first), starting from accumulator `a`. -/
def digitsToNat (a : Nat) (cs : List Char) : Nat :=
  cs.foldl (fun acc c => acc * 10 + digitVal c) a

/-- Fuelled core of the `%d` renderer: emit the decimal digits of `n`
in front of `acc`. -/
def natDigitsAux : Nat → Nat → List Char → List Char
  | 0, _, acc => acc
  | fuel + 1, n, acc =>
    if n < 10 then Nat.digitChar n :: acc
    else natDigitsAux fuel (n / 10) (Nat.digitChar (n % 10) :: acc)

/-- The decimal digits of `n`, as rendered by Python's `%d` for a
non-negative argument. -/
def natDigits (n : Nat) : List Char :=
  natDigitsAux (n + 1) n []

/-- Python's `%0wd` for a non-negative argument: the decimal digits of
`n`, left-padded with zeros to a minimum width `w` (wider numbers are
printed in full). -/
def padZeros (w n : Nat) : List Char :=
  List.replicate (w - (natDigits n).length) '0' ++ natDigits n

/-- Python's `str` on an `int`: an optional leading minus sign followed
by the decimal digits of the absolute value. -/
def intDigits (i : Int) : List Char :=
  if i < 0 then '-' :: natDigits i.natAbs else natDigits i.natAbs

theorem digitChar_spec : ∀ k, k < 10 →
    isDigitChar (Nat.digitChar k) = true ∧ digitVal (Nat.digitChar k) = k := by
  decide

theorem natDigitsAux_fuel {f1 f2 n : Nat} (acc : List Char) (h1 : n < f1) (h2 : n < f2) :
    natDigitsAux f1 n acc = natDigitsAux f2 n acc := by
  induction f1 generalizing f2 n acc with
  | zero => omega
  | succ g ih =>
    cases f2 with
    | zero => omega
    | succ g2 =>
      simp only [natDigitsAux]
      by_cases hn : n < 10
      · simp [hn]
      · simp only [hn, if_false]
        exact ih _ (by omega) (by omega)

theorem natDigitsAux_append {f n : Nat} (acc : List Char) (h : n < f) :
    natDigitsAux f n acc = natDigitsAux f n [] ++ acc := by
  induction f generalizing n acc with
  | zero => omega
  | succ g ih =>
    simp only [natDigitsAux]
    by_cases hn : n < 10
    · simp [hn]
    · simp only [hn, if_false]
      rw [ih _ (by omega), ih (Nat.digitChar (n % 10) :: []) (by omega)]
      simp

theorem natDigits_small {n : Nat} (h : n < 10) : natDigits n = [Nat.digitChar n] := by
  simp [natDigits, natDigitsAux, h]

theorem natDigits_large {n : Nat} (h : 10 ≤ n) :
    natDigits n = natDigits (n / 10) ++ [Nat.digitChar (n % 10)] := by
  have step : natDigits n = natDigitsAux n (n / 10) [Nat.digitChar (n % 10)] := by
    show natDigitsAux (n + 1) n [] = _
    rw [show natDigitsAux (n + 1) n [] =
          if n < 10 then [Nat.digitChar n]
          else natDigitsAux n (n / 10) [Nat.digitChar (n % 10)] from rfl]
    rw [if_neg (by omega)]
  rw [step, natDigitsAux_append _ (show n / 10 < n by omega)]
  congr 1
  show natDigitsAux n (n / 10) [] = natDigitsAux (n / 10 + 1) (n / 10) []
  apply natDigitsAux_fuel <;> omega

theorem natDigits_all_digits (n : Nat) : ∀ c ∈ natDigits n, isDigitChar c = true := by
  induction n using Nat.strong_induction_on with
  | _ n ih =>
    by_cases h : n < 10
    · rw [natDigits_small h]
      intro c hc
      rw [List.mem_singleton] at hc
      subst hc
      exact (digitChar_spec n h).1
    · rw [natDigits_large (by omega)]
      intro c hc
      rcases List.mem_append.1 hc with hc | hc
      · exact ih (n / 10) (by omega) c hc
      · rw [List.mem_singleton] at hc
        subst hc
        exact (digitChar_spec (n % 10) (by omega)).1

theorem natDigits_ne_nil (n : Nat) : natDigits n ≠ [] := by
  by_cases h : n < 10
  · rw [natDigits_small h]; simp
  · rw [natDigits_large (by omega)]; simp

theorem digitsToNat_natDigits (n : Nat) : digitsToNat 0 (natDigits n) = n := by
  induction n using Nat.strong_induction_on with
  | _ n ih =>
    by_cases h : n < 10
    · rw [natDigits_small h]
      simp [digitsToNat, (digitChar_spec n h).2]
    · rw [natDigits_large (by omega)]
      unfold digitsToNat
      rw [List.foldl_append]
      have h1 : List.foldl (fun acc c => acc * 10 + digitVal c) 0 (natDigits (n / 10)) = n / 10 :=
        ih (n / 10) (by omega)
      rw [h1]
      simp [(digitChar_spec (n % 10) (by omega)).2]
      omega

theorem digitsToNat_zeros_append (k : Nat) (l : List Char) :
    digitsToNat 0 (List.replicate k '0' ++ l) = digitsToNat 0 l := by
  induction k with
  | zero => rfl
  | succ m ih =>
    simp only [List.replicate_succ, List.cons_append]
    unfold digitsToNat at ih ⊢
    simpa [digitVal] using ih

theorem padZeros_all_digits (w n : Nat) : ∀ c ∈ padZeros w n, isDigitChar c = true := by
  intro c hc
  rcases List.mem_append.1 hc with hc | hc
  · rw [List.eq_of_mem_replicate hc]
    decide
  · exact natDigits_all_digits n c hc

theorem padZeros_ne_nil (w n : Nat) : padZeros w n ≠ [] := by
  unfold padZeros
  intro h
  rcases List.append_eq_nil.1 h with ⟨-, h2⟩
  exact natDigits_ne_nil n h2

theorem digitsToNat_padZeros (w n : Nat) : digitsToNat 0 (padZeros w n) = n := by
  unfold padZeros
  rw [digitsToNat_zeros_append, digitsToNat_natDigits]

/-! ### Greedy digit-group parsing

`timespan.fromstring` uses the regex
`(\d+)d (\d+)h(\d+)m(\d+)\.(\d+)s` via `re.match`, and the date/int
getters use `strptime` / `int`.  In every one of those patterns a
greedy digit group is followed by a non-digit literal, so regex
backtracking never fires and a greedy scan is an exact model.
-/

/-- Split off the longest leading run of ASCII digits (the greedy
`\d*`). -/
def spanDigits : List Char → List Char × List Char
  | [] => ([], [])
  | c :: cs =>
    if isDigitChar c then
      ((spanDigits cs).1.cons c, (spanDigits cs).2)
    else ([], c :: cs)

/-- Does the list not start with a digit?  (Vacuously true for the
empty list.) -/
def noDigitHead : List Char → Bool
  | [] => true
  | c :: _ => !(isDigitChar c)

/-- One greedy `(\d+)` group: at least one digit, returning its value
and the rest of the input. -/
def parseNum (cs : List Char) : Option (Nat × List Char) :=
  if (spanDigits cs).1.isEmpty then Option.none
  else some (digitsToNat 0 (spanDigits cs).1, (spanDigits cs).2)

/-- Consume one expected literal character. -/
def expectChar (c : Char) : List Char → Option (List Char)
  | [] => Option.none
  | x :: xs => if x = c then some xs else Option.none

theorem spanDigits_append {ds rest : List Char}
    (hd : ∀ c ∈ ds, isDigitChar c = true) (hr : noDigitHead rest = true) :
    spanDigits (ds ++ rest) = (ds, rest) := by
  induction ds with
  | nil =>
    simp only [List.nil_append]
    cases rest with
    | nil => rfl
    | cons c cs =>
      simp only [noDigitHead, Bool.not_eq_true'] at hr
      simp [spanDigits, hr]
  | cons d ds ih =>
    have hdd : isDigitChar d = true := hd d (by simp)
    have htl : ∀ c ∈ ds, isDigitChar c = true := fun c hc => hd c (by simp [hc])
    simp only [List.cons_append, spanDigits, hdd, if_true, List.append_eq]
    rw [ih htl]

theorem parseNum_append {ds rest : List Char} (hne : ds ≠ [])
    (hd : ∀ c ∈ ds, isDigitChar c = true) (hr : noDigitHead rest = true) :
    parseNum (ds ++ rest) = some (digitsToNat 0 ds, rest) := by
  unfold parseNum
  rw [spanDigits_append hd hr]
  simp [hne]

theorem parseNum_natDigits (n : Nat) (rest : List Char) (hr : noDigitHead rest = true) :
    parseNum (natDigits n ++ rest) = some (n, rest) := by
  rw [parseNum_append (natDigits_ne_nil n) (natDigits_all_digits n) hr, digitsToNat_natDigits]

theorem parseNum_padZeros (w n : Nat) (rest : List Char) (hr : noDigitHead rest = true) :
    parseNum (padZeros w n ++ rest) = some (n, rest) := by
  rw [parseNum_append (padZeros_ne_nil w n) (padZeros_all_digits w n) hr, digitsToNat_padZeros]

theorem expectChar_cons_self (c : Char) (cs : List Char) :
    expectChar c (c :: cs) = some cs := by
  simp [expectChar]

theorem noDigitHead_cons {c : Char} (l : List Char) (h : isDigitChar c = false) :
    noDigitHead (c :: l) = true := by
  simp [noDigitHead, h]

/-! ### The `timespan` duration codec (lines 273-292)

`timespan` subclasses `datetime.timedelta`, so an instance is a
normalised triple: `days` (any integer), `seconds` in `[0, 86400)` and
`microseconds` in `[0, 10^6)`.  We carry the triple without baking the
normalisation bounds into the type; theorems that need them take them
as hypotheses.
-/

/-- The normalised `(days, seconds, microseconds)` triple of a
`timespan` value (a `datetime.timedelta` subclass). -/
structure timespan where
  days : Int
  seconds : Nat
  microseconds : Nat
deriving DecidableEq

/-- The `timespan(days, seconds, microseconds)` constructor on the
non-negative arguments produced by `fromstring` (line 292): the
`timedelta` constructor carries microseconds into seconds and seconds
into days. -/
def timespan.make (d s us : Nat) : timespan :=
  ⟨((d + (s + us / 1000000) / 86400 : Nat) : Int),
    (s + us / 1000000) % 86400,
    us % 1000000⟩

/-- `timespan.__str__` (lines 277-284): the format string
`'%dd %dh%dm%d.%03ds'` applied to `abs(days)`, `seconds // 3600`,
`seconds % 3600 // 60`, `seconds % 60` and `microseconds`.  Note that
`%03d` only zero-pads the microsecond count; it does not truncate it. -/
def timespan.toChars (t : timespan) : List Char :=
  natDigits t.days.natAbs ++ 'd' :: ' ' ::
    (natDigits (t.seconds / 3600) ++ 'h' ::
      (natDigits (t.seconds % 3600 / 60) ++ 'm' ::
        (natDigits (t.seconds % 60) ++ '.' ::
          (padZeros 3 t.microseconds ++ ['s']))))

/-- `str(timespan)` as a `String`. -/
def timespan.str (t : timespan) : String :=
  String.mk (timespan.toChars t)

/-- The matcher `(\d+)d (\d+)h(\d+)m(\d+)\.(\d+)s` applied with
`re.match` (anchored at the start only; trailing input is ignored),
followed by the reassembly
`timespan(days, hours*3600 + minutes*60 + seconds, useconds)` of
line 292. -/
def timespan.fromstringAux (cs : List Char) : Option timespan :=
  (parseNum cs).bind fun p1 =>
    (expectChar 'd' p1.2).bind fun cs1 =>
      (expectChar ' ' cs1).bind fun cs2 =>
        (parseNum cs2).bind fun p2 =>
          (expectChar 'h' p2.2).bind fun cs3 =>
            (parseNum cs3).bind fun p3 =>
              (expectChar 'm' p3.2).bind fun cs4 =>
                (parseNum cs4).bind fun p4 =>
                  (expectChar '.' p4.2).bind fun cs5 =>
                    (parseNum cs5).bind fun p5 =>
                      (expectChar 's' p5.2).map fun _ =>
                        timespan.make p1.1 (p2.1 * 3600 + p3.1 * 60 + p4.1) p5.1

/-- `timespan.fromstring` (lines 286-292); `Option.none` models the
raised `ValueError` when the pattern does not match. -/
def timespan.fromstring (s : String) : Option timespan :=
  timespan.fromstringAux s.data

theorem fromstringAux_toChars (t : timespan) :
    timespan.fromstringAux (timespan.toChars t) =
      some (timespan.make t.days.natAbs
        (t.seconds / 3600 * 3600 + t.seconds % 3600 / 60 * 60 + t.seconds % 60)
        t.microseconds) := by
  unfold timespan.toChars timespan.fromstringAux
  rw [parseNum_natDigits _ _ (noDigitHead_cons _ (by decide))]
  simp only [Option.some_bind]
  rw [expectChar_cons_self]
  simp only [Option.some_bind]
  rw [expectChar_cons_self]
  simp only [Option.some_bind]
  rw [parseNum_natDigits _ _ (noDigitHead_cons _ (by decide))]
  simp only [Option.some_bind]
  rw [expectChar_cons_self]
  simp only [Option.some_bind]
  rw [parseNum_natDigits _ _ (noDigitHead_cons _ (by decide))]
  simp only [Option.some_bind]
  rw [expectChar_cons_self]
  simp only [Option.some_bind]
  rw [parseNum_natDigits _ _ (noDigitHead_cons _ (by decide))]
  simp only [Option.some_bind]
  rw [expectChar_cons_self]
  simp only [Option.some_bind]
  rw [parseNum_padZeros _ _ _ (noDigitHead_cons _ (by decide))]
  simp only [Option.some_bind]
  rw [expectChar_cons_self]
  rfl

/-- Round trip of the duration codec for a normalised, non-negative
span: decoding the encoded string restores the span exactly. -/
theorem fromstring_str (t : timespan) (hd : 0 ≤ t.days) (hs : t.seconds < 86400)
    (hu : t.microseconds < 1000000) :
    timespan.fromstring (timespan.str t) = some t := by
  show timespan.fromstringAux (timespan.toChars t) = some t
  rw [fromstringAux_toChars t]
  have harith : t.seconds / 3600 * 3600 + t.seconds % 3600 / 60 * 60 + t.seconds % 60
      = t.seconds := by omega
  rw [harith]
  obtain ⟨d, s, us⟩ := t
  simp only at hd hs hu
  unfold timespan.make
  simp only [Option.some.injEq, timespan.mk.injEq]
  refine ⟨?_, ?_, ?_⟩ <;> omega

/-! ### Dates

`DateEntityField` (lines 261-270) encodes with `str(date)` — the ISO
form `%04d-%02d-%02d` — and decodes with
`datetime.strptime(text, '%Y-%m-%d').date()`.  A `datetime.date` is a
valid proleptic-Gregorian triple with year in `1..9999`.
-/

/-- A `datetime.date` value: a `(year, month, day)` triple.  Python
guarantees validity (`PyDate.validB`) at construction time; theorems
take it as a hypothesis. -/
structure PyDate where
  year : Nat
  month : Nat
  day : Nat
deriving DecidableEq

/-- Gregorian leap-year rule, as implemented by `datetime`. -/
def isLeap (y : Nat) : Bool :=
  decide (y % 4 = 0) && (decide (y % 100 ≠ 0) || decide (y % 400 = 0))

/-- Length of a month in the proleptic Gregorian calendar. -/
def daysInMonth (y m : Nat) : Nat :=
  if m = 2 then (if isLeap y then 29 else 28)
  else if m = 4 ∨ m = 6 ∨ m = 9 ∨ m = 11 then 30
  else 31

/-- The validity invariant `datetime.date` enforces on construction. -/
def PyDate.validB (d : PyDate) : Bool :=
  decide (1 ≤ d.year) && decide (d.year ≤ 9999) &&
    decide (1 ≤ d.month) && decide (d.month ≤ 12) &&
    decide (1 ≤ d.day) && decide (d.day ≤ daysInMonth d.year d.month)

/-- `str(date)`: the ISO `YYYY-MM-DD` rendering. -/
def dateChars (d : PyDate) : List Char :=
  padZeros 4 d.year ++ '-' :: (padZeros 2 d.month ++ '-' :: padZeros 2 d.day)

/-- `datetime.strptime(_, '%Y-%m-%d').date()`: three digit groups
separated by hyphens, consuming the whole input, validated by the
`date` constructor.  (`strptime` limits `%Y` to four digits, but any
longer group fails the `year ≤ 9999` validation here just as it fails
to match there, so the greedy scan is equivalent on all inputs.) -/
def parseDateChars (cs : List Char) : Option PyDate :=
  (parseNum cs).bind fun p1 =>
    (expectChar '-' p1.2).bind fun cs1 =>
      (parseNum cs1).bind fun p2 =>
        (expectChar '-' p2.2).bind fun cs2 =>
          (parseNum cs2).bind fun p3 =>
            if p3.2.isEmpty && PyDate.validB ⟨p1.1, p2.1, p3.1⟩ then some ⟨p1.1, p2.1, p3.1⟩
            else Option.none

theorem parseDateChars_dateChars {d : PyDate} (h : PyDate.validB d = true) :
    parseDateChars (dateChars d) = some d := by
  unfold dateChars parseDateChars
  rw [parseNum_padZeros _ _ _ (noDigitHead_cons _ (by decide))]
  simp only [Option.some_bind]
  rw [expectChar_cons_self]
  simp only [Option.some_bind]
  rw [parseNum_padZeros _ _ _ (noDigitHead_cons _ (by decide))]
  simp only [Option.some_bind]
  rw [expectChar_cons_self]
  simp only [Option.some_bind]
  have h3 : parseNum (padZeros 2 d.day) = some (d.day, ([] : List Char)) := by
    have h4 := parseNum_padZeros 2 d.day [] (by decide)
    simpa using h4
  rw [h3]
  simp only [Option.some_bind]
  obtain ⟨y, m, dd⟩ := d
  simp [h]

/-! ### Python values

The values that flow through the modelled descriptors.  Only the kinds
the verified properties exercise are represented (`None`, `str`, `int`,
`datetime.date`, `timespan`, and a plain `datetime.timedelta` that is
not a `timespan`); the remaining entity-field kinds (`bool`, `float`,
`long`, `datetime.datetime`) play no role in any property below.
-/

/-- A Python value, tagged by its runtime class. -/
inductive PyVal where
  | none
  | str (s : String)
  | int (i : Int)
  | date (d : PyDate)
  | timespanVal (t : timespan)
  | timedeltaVal (t : timespan)
deriving DecidableEq

/-- Python's `str` on a plain `timedelta`: `[D day(s), ]H:MM:SS[.ffffff]`.
Included for totality of `pyStr`; no modelled code path reaches it,
because `TimeSpanEntityField.__set__` rejects plain timedeltas first. -/
def timedeltaStr (t : timespan) : String :=
  String.mk
    ((if t.days = 0 then []
      else intDigits t.days ++
        (if t.days = 1 ∨ t.days = -1 then ' ' :: 'd' :: 'a' :: 'y' :: ',' :: [' ']
         else ' ' :: 'd' :: 'a' :: 'y' :: 's' :: ',' :: [' '])) ++
      (natDigits (t.seconds / 3600) ++ ':' ::
        (padZeros 2 (t.seconds % 3600 / 60) ++ ':' :: padZeros 2 (t.seconds % 60))) ++
      (if t.microseconds ≠ 0 then '.' :: padZeros 6 t.microseconds else []))

/-- Python's `str()` on the modelled values (`str(None) = 'None'`;
`str` is the identity on strings; integers print in decimal; dates in
ISO form; a `timespan` via `timespan.__str__`). -/
def pyStr : PyVal → String
  | PyVal.none => String.mk ('N' :: 'o' :: 'n' :: ['e'])
  | PyVal.str s => s
  | PyVal.int i => String.mk (intDigits i)
  | PyVal.date d => String.mk (dateChars d)
  | PyVal.timespanVal t => timespan.str t
  | PyVal.timedeltaVal t => timedeltaStr t

/-- The idiom `str(val) if not isinstance(val, basestring) else val`
(lines 191, 195 and 314-315): coerce any value to its string form,
leaving strings untouched. -/
def stringifyPy (v : PyVal) : String :=
  match v with
  | PyVal.str s => s
  | v => pyStr v

/-- Lines 175-176 of `StringEntityField.__set__`: a non-string,
non-`None` value is replaced by `str(val)`; `None` stays `None`.  The
result is the optional string actually written. -/
def coerceVal : PyVal → Option String
  | PyVal.none => Option.none
  | PyVal.str s => some s
  | v => some (pyStr v)

/-- `isinstance(val, numbers.Number)` restricted to the modelled value
kinds (of which only `int` is a `Number`). -/
def isNumber : PyVal → Bool
  | PyVal.int _ => true
  | _ => false

/-- `isinstance(val, datetime.date)` on the modelled value kinds. -/
def isDate : PyVal → Bool
  | PyVal.date _ => true
  | _ => false

/-- `isinstance(val, timespan)`. -/
def isTimespanInst : PyVal → Bool
  | PyVal.timespanVal _ => true
  | _ => false

/-- `isinstance(val, datetime.timedelta)`: true for plain timedeltas
and for `timespan`, which subclasses it. -/
def isTimedeltaInst : PyVal → Bool
  | PyVal.timespanVal _ => true
  | PyVal.timedeltaVal _ => true
  | _ => false

/-- `val.__class__ is timedelta`: true only for a plain, exact
`timedelta` instance. -/
def classIsTimedelta : PyVal → Bool
  | PyVal.timedeltaVal _ => true
  | _ => false

/-- Line 305, `timespan(val.days, val.seconds, val.microseconds)`: a
plain (already normalised) timedelta re-wrapped as a `timespan`. -/
def timedeltaToTimespan : PyVal → PyVal
  | PyVal.timedeltaVal t => PyVal.timespanVal t
  | v => v

/-! ### The message-tree fragment the descriptors touch

An owner (an `Entity` or any `MaltegoElement` carrying an
`AdditionalFields` collection) is modelled by its ordered list of
`Field` children; that is the only state `StringEntityField` and its
subclasses read or write.  `obj += f` appends to that list and
`obj -= f` removes the appended child (lines 179, 181 via
`Entity.appendelement` / `removeelement`).
-/

/-- The errors the modelled code can raise. -/
inductive PyErr where
  /-- `AttributeError`, from executing `f.text = val` with `f = None`. -/
  | attributeError
  /-- `ValueError` (the validation/format error of enums, patterns,
  `int()`, `strptime` and `timespan.fromstring`). -/
  | valueError
  /-- `TypeError`, from the `isinstance` guards of the typed setters. -/
  | typeError
deriving DecidableEq

/-- A backing `Field` child node (lines 142-152): `Name`,
`DisplayName`, `MatchingRule` attributes and the encoded `text`. -/
structure Field where
  name : String
  displayname : Option String
  matchingrule : String
  text : String
deriving DecidableEq

/-- The owner node, reduced to its ordered `fields` collection. -/
structure Entity where
  fields : List Field
deriving DecidableEq

/-- `MatchingRule.Strict` (line 138). -/
def MatchingRule.strict : String := String.mk ('s' :: 't' :: 'r' :: 'i' :: 'c' :: ['t'])

/-- `MatchingRule.Loose` (line 139). -/
def MatchingRule.loose : String := String.mk ('l' :: 'o' :: 'o' :: 's' :: ['e'])

/-- `f.text = val` on the first name-matching child: replace the text
of the first `Field` called `nm`, keeping everything else. -/
def updateFirstNamed (nm s : String) : List Field → List Field
  | [] => []
  | f :: fs =>
    if f.name == nm then ⟨f.name, f.displayname, f.matchingrule, s⟩ :: fs
    else f :: updateFirstNamed nm s fs

/-- `obj -= f` where `f` is the first name-matching child: remove the
first `Field` called `nm`. -/
def removeFirstNamed (nm : String) : List Field → List Field
  | [] => []
  | f :: fs => if f.name == nm then fs else f :: removeFirstNamed nm fs

/-! ### `StringEntityField` (lines 155-185) -/

/-- The schema-side state of a `StringEntityField` descriptor.  The
`decorator` attribute holds an arbitrary Python callable, which is
external code; the model records whether one is bound
(`hasDecorator`) and, in `SetResult.decoratorCall`, the arguments of
its invocation. -/
structure StringEntityField where
  name : String
  displayname : Option String
  hasDecorator : Bool
  matchingrule : String
deriving DecidableEq

/-- The outcome of a successful `__set__`: the mutated owner, plus the
`(obj, val)` argument pair of the decorator invocation when a
decorator is bound (line 184-185), or `none` when it is not. -/
structure SetResult where
  owner : Entity
  decoratorCall : Option (Entity × Option String)
deriving DecidableEq

/-- `StringEntityField._find` (lines 163-167): linear scan of
`obj.fields` for the first child whose `Name` equals the descriptor's
`name`. -/
def StringEntityField.find (fld : StringEntityField) (obj : Entity) : Option Field :=
  obj.fields.find? fun f => f.name == fld.name

/-- `StringEntityField.__get__` (lines 169-171): the found child's
text, or `None` when no backing child exists. -/
def StringEntityField.get (fld : StringEntityField) (obj : Entity) : Option String :=
  match fld.find obj with
  | some f => some f.text
  | Option.none => Option.none

/-- The structural part of `StringEntityField.__set__`
(lines 173-183): after the string coercion of `val`,

* no backing child and a present value → create a `Field` with the
  descriptor's name/display name/matching rule and append it;
* a backing child and an absent value → remove that child;
* otherwise → `f.text = val`, which for a present child updates its
  text in place, and for `f = None` (absent child, absent value)
  raises `AttributeError`. -/
def StringEntityField.setOwner (fld : StringEntityField) (obj : Entity) (val : PyVal) :
    Except PyErr Entity :=
  match fld.find obj, coerceVal val with
  | Option.none, some s =>
    Except.ok ⟨obj.fields ++ [⟨fld.name, fld.displayname, fld.matchingrule, s⟩]⟩
  | some _, Option.none => Except.ok ⟨removeFirstNamed fld.name obj.fields⟩
  | some _, some s => Except.ok ⟨updateFirstNamed fld.name s obj.fields⟩
  | Option.none, Option.none => Except.error PyErr.attributeError

/-- `StringEntityField.__set__` (lines 173-185): the structural update
followed, on every path that did not raise, by the decorator
invocation `self.decorator(obj, val)` when a decorator is bound. -/
def StringEntityField.set (fld : StringEntityField) (obj : Entity) (val : PyVal) :
    Except PyErr SetResult :=
  match fld.setOwner obj val with
  | Except.error e => Except.error e
  | Except.ok o =>
    Except.ok ⟨o, if fld.hasDecorator then some (o, coerceVal val) else Option.none⟩

theorem find?_append_of_none {p : Field → Bool} {l1 l2 : List Field}
    (h : l1.find? p = Option.none) : (l1 ++ l2).find? p = l2.find? p := by
  induction l1 with
  | nil => rfl
  | cons a l1 ih =>
    by_cases hpa : p a = true
    · rw [List.find?_cons_of_pos _ hpa] at h
      exact absurd h (by simp)
    · rw [List.find?_cons_of_neg _ (by simpa using hpa)] at h
      rw [List.cons_append, List.find?_cons_of_neg _ (by simpa using hpa)]
      exact ih h

theorem find?_updateFirstNamed {nm s : String} {l : List Field} {f : Field}
    (h : l.find? (fun g => g.name == nm) = some f) :
    (updateFirstNamed nm s l).find? (fun g => g.name == nm) =
      some ⟨f.name, f.displayname, f.matchingrule, s⟩ := by
  induction l with
  | nil => simp [List.find?] at h
  | cons a l ih =>
    by_cases hpa : (a.name == nm) = true
    · rw [@List.find?_cons_of_pos Field (fun g => g.name == nm) a l hpa] at h
      obtain rfl : a = f := by simpa using h
      simp only [updateFirstNamed, if_pos hpa]
      exact List.find?_cons_of_pos _ hpa
    · rw [@List.find?_cons_of_neg Field (fun g => g.name == nm) a l hpa] at h
      simp only [updateFirstNamed, if_neg hpa]
      rw [@List.find?_cons_of_neg Field (fun g => g.name == nm) a (updateFirstNamed nm s l) hpa]
      exact ih h

theorem setOwner_find_none {fld : StringEntityField} {obj : Entity} {val : PyVal} {s : String}
    (h : coerceVal val = some s) (hf : fld.find obj = Option.none) :
    fld.setOwner obj val =
      Except.ok ⟨obj.fields ++ [⟨fld.name, fld.displayname, fld.matchingrule, s⟩]⟩ := by
  unfold StringEntityField.setOwner
  rw [h, hf]

theorem setOwner_find_some {fld : StringEntityField} {obj : Entity} {val : PyVal} {s : String}
    {f : Field} (h : coerceVal val = some s) (hf : fld.find obj = some f) :
    fld.setOwner obj val = Except.ok ⟨updateFirstNamed fld.name s obj.fields⟩ := by
  unfold StringEntityField.setOwner
  rw [h, hf]

theorem set_of_setOwner {fld : StringEntityField} {obj : Entity} {val : PyVal} {o : Entity}
    (h : fld.setOwner obj val = Except.ok o) :
    fld.set obj val =
      Except.ok ⟨o, if fld.hasDecorator then some (o, coerceVal val) else Option.none⟩ := by
  unfold StringEntityField.set
  rw [h]

theorem get_append_new (fld : StringEntityField) {obj : Entity} (s : String)
    (hf : fld.find obj = Option.none) :
    fld.get ⟨obj.fields ++ [⟨fld.name, fld.displayname, fld.matchingrule, s⟩]⟩ = some s := by
  unfold StringEntityField.get StringEntityField.find
  unfold StringEntityField.find at hf
  rw [find?_append_of_none hf]
  simp [List.find?]

theorem get_update (fld : StringEntityField) {obj : Entity} (s : String) {f : Field}
    (hf : fld.find obj = some f) :
    fld.get ⟨updateFirstNamed fld.name s obj.fields⟩ = some s := by
  unfold StringEntityField.get StringEntityField.find
  unfold StringEntityField.find at hf
  rw [find?_updateFirstNamed hf]

/-- A write of a present (post-coercion) value always succeeds, and a
subsequent read decodes to exactly the string written. -/
theorem set_some_ok (fld : StringEntityField) (obj : Entity) (val : PyVal) (s : String)
    (h : coerceVal val = some s) :
    ∃ r, fld.set obj val = Except.ok r ∧ fld.get r.owner = some s := by
  cases hf : fld.find obj with
  | none =>
    exact ⟨_, set_of_setOwner (setOwner_find_none h hf), get_append_new fld s hf⟩
  | some f =>
    exact ⟨_, set_of_setOwner (setOwner_find_some h hf), get_update fld s hf⟩

/-! ### `EnumEntityField` (lines 188-198) -/

/-- An enumerated descriptor: a `StringEntityField` plus the stored
`choices`.  Per line 191 the declared choices are stringified once at
construction (see `EnumEntityField.make`), so `choices` holds
strings. -/
structure EnumEntityField extends StringEntityField where
  choices : List String
deriving DecidableEq

/-- `EnumEntityField.__init__` (lines 190-192): store
`[str(c) if not isinstance(c, basestring) else c for c in choices]`
and forward the rest to `StringEntityField.__init__`. -/
def EnumEntityField.make (name : String) (displayname : Option String) (choices : List PyVal)
    (hasDec : Bool) (matchingrule : String) : EnumEntityField :=
  ⟨⟨name, displayname, hasDec, matchingrule⟩, choices.map stringifyPy⟩

/-- `EnumEntityField.__set__` (lines 194-198): stringify the candidate
value, raise `ValueError` when it is not among the stored choices, and
otherwise delegate to `StringEntityField.__set__` with the stringified
value.  The raise precedes the delegated write, so a rejected value
leaves the owner untouched. -/
def EnumEntityField.set (fld : EnumEntityField) (obj : Entity) (val : PyVal) :
    Except PyErr SetResult :=
  if stringifyPy val ∉ fld.choices then Except.error PyErr.valueError
  else fld.toStringEntityField.set obj (PyVal.str (stringifyPy val))

/-! ### `IntegerEntityField` (lines 201-210) -/

/-- Python's `int()` on the optionally-signed decimal strings produced
by `str` on an `int`: an optional minus sign followed by at least one
digit, consuming the whole input.  (`int()` additionally tolerates
surrounding whitespace and a plus sign, which no modelled code path
produces.)  `Option.none` models the raised `ValueError`. -/
def parseInt : List Char → Option Int
  | [] => Option.none
  | c :: cs =>
    if c = '-' then
      if cs.isEmpty || !(cs.all isDigitChar) then Option.none
      else some (-(digitsToNat 0 cs : Int))
    else
      if !((c :: cs).all isDigitChar) then Option.none
      else some ((digitsToNat 0 (c :: cs) : Int))

theorem parseInt_intDigits (i : Int) : parseInt (intDigits i) = some i := by
  have hall : ∀ n : Nat, (natDigits n).all isDigitChar = true :=
    fun n => List.all_eq_true.2 (natDigits_all_digits n)
  unfold intDigits
  by_cases h : i < 0
  · rw [if_pos h]
    simp only [parseInt, if_pos rfl, if_true]
    rw [if_neg]
    · rw [digitsToNat_natDigits]
      have : -((i.natAbs : Nat) : Int) = i := by omega
      rw [this]
    · have h1 : (natDigits i.natAbs).isEmpty = false := by
        cases e : natDigits i.natAbs with
        | nil => exact absurd e (natDigits_ne_nil _)
        | cons c cs => rfl
      simp [h1, hall i.natAbs]
  · rw [if_neg h]
    cases e : natDigits i.natAbs with
    | nil => exact absurd e (natDigits_ne_nil _)
    | cons c cs =>
      have hc : isDigitChar c = true := by
        refine natDigits_all_digits i.natAbs c ?_
        rw [e]; simp
      have hcm : ¬(c = '-') := by
        intro hcc
        subst hcc
        exact absurd hc (by decide)
      simp only [parseInt, if_neg hcm]
      rw [if_neg]
      · rw [← e, digitsToNat_natDigits]
        have : ((i.natAbs : Nat) : Int) = i := by omega
        rw [this]
      · rw [← e]
        simp [hall i.natAbs]

/-- `IntegerEntityField.__set__` (lines 207-210): reject any value
that is not a `numbers.Number` with `TypeError`, then delegate to the
string setter (which encodes via `str(val)`). -/
def IntegerEntityField.set (fld : StringEntityField) (obj : Entity) (val : PyVal) :
    Except PyErr SetResult :=
  if !(isNumber val) then Except.error PyErr.typeError
  else fld.set obj val

/-- `IntegerEntityField.__get__` (lines 203-205): `int(text)` of the
backing child's text, `None` when absent. -/
def IntegerEntityField.get (fld : StringEntityField) (obj : Entity) :
    Except PyErr (Option Int) :=
  match fld.get obj with
  | Option.none => Except.ok Option.none
  | some s =>
    match parseInt s.data with
    | some i => Except.ok (some i)
    | Option.none => Except.error PyErr.valueError

/-! ### `DateEntityField` (lines 261-270) -/

/-- `DateEntityField.__set__` (lines 267-270): reject non-`date`
values with `TypeError`, then delegate (the string setter encodes via
`str(val)`, the ISO date form). -/
def DateEntityField.set (fld : StringEntityField) (obj : Entity) (val : PyVal) :
    Except PyErr SetResult :=
  if !(isDate val) then Except.error PyErr.typeError
  else fld.set obj val

/-- `DateEntityField.__get__` (lines 263-265):
`strptime(text, '%Y-%m-%d').date()`, `None` when absent. -/
def DateEntityField.get (fld : StringEntityField) (obj : Entity) :
    Except PyErr (Option PyDate) :=
  match fld.get obj with
  | Option.none => Except.ok Option.none
  | some s =>
    match parseDateChars s.data with
    | some d => Except.ok (some d)
    | Option.none => Except.error PyErr.valueError

/-! ### `TimeSpanEntityField` (lines 295-306) -/

/-- `TimeSpanEntityField.__set__` (lines 301-306).  The guard
`not isinstance(val, timespan) or not isinstance(val, timedelta)`
rejects everything that is not a `timespan` (since every `timespan` is
a `timedelta`); the subsequent `val.__class__ is timedelta` conversion
of a plain timedelta is kept verbatim from the source. -/
def TimeSpanEntityField.set (fld : StringEntityField) (obj : Entity) (val : PyVal) :
    Except PyErr SetResult :=
  if !(isTimespanInst val) || !(isTimedeltaInst val) then Except.error PyErr.typeError
  else fld.set obj (if classIsTimedelta val then timedeltaToTimespan val else val)

/-- `TimeSpanEntityField.__get__` (lines 297-299):
`timespan.fromstring(text)`, `None` when absent. -/
def TimeSpanEntityField.get (fld : StringEntityField) (obj : Entity) :
    Except PyErr (Option timespan) :=
  match fld.get obj with
  | Option.none => Except.ok Option.none
  | some s =>
    match timespan.fromstring s with
    | some t => Except.ok (some t)
    | Option.none => Except.error PyErr.valueError

/-! ### `RegexEntityField` and `ColorEntityField` (lines 309-323) -/

/-- The character class `[0-9a-fA-F]`. -/
def isHexDigit (c : Char) : Bool :=
  (decide ('0' ≤ c) && decide (c ≤ '9')) ||
    (decide ('a' ≤ c) && decide (c ≤ 'f')) ||
    (decide ('A' ≤ c) && decide (c ≤ 'F'))

/-- `re.match('^#[0-9a-fA-F]{6}$', _)` viewed as a predicate on the
whole input, with Python `re` semantics: without `re.MULTILINE`, `$`
matches at the end of the string or just before one trailing newline,
so a final `'\n'` after the six hex digits is also accepted. -/
def colorMatch (cs : List Char) : Bool :=
  match cs with
  | c0 :: c1 :: c2 :: c3 :: c4 :: c5 :: c6 :: rest =>
    decide (c0 = '#') && isHexDigit c1 && isHexDigit c2 && isHexDigit c3 &&
      isHexDigit c4 && isHexDigit c5 && isHexDigit c6 &&
      (decide (rest = []) || decide (rest = ['\n']))
  | _ => false

/-- The color pattern on a Python string. -/
def colorPattern (s : String) : Bool :=
  colorMatch s.data

/-- `RegexEntityField.__set__` (lines 313-318), parametrised by the
compiled pattern's match predicate: stringify the value, raise
`ValueError` when the pattern does not match, otherwise delegate to
the string setter. -/
def RegexEntityField.set (pat : String → Bool) (fld : StringEntityField) (obj : Entity)
    (val : PyVal) : Except PyErr SetResult :=
  if pat (stringifyPy val) = false then Except.error PyErr.valueError
  else fld.set obj (PyVal.str (stringifyPy val))

/-- `ColorEntityField` (lines 321-323): `RegexEntityField` with the
pattern narrowed to `^#[0-9a-fA-F]{6}$`. -/
def ColorEntityField.set : StringEntityField → Entity → PyVal → Except PyErr SetResult :=
  RegexEntityField.set colorPattern

/-! ### The `EntityField` schema composer (lines 340-355)

Only the members the verified properties concern are modelled: the
required wire `name` and the accessor (`property`) name.  The
remaining attributes (`displayname`, `type`, `required`, `choices`,
`matchingrule`, `decorator`) are read from the same keyword dictionary
but play no role in any property below; the `link` flag only affects
the unmodelled `displayname` default. -/

/-- The regex class `\w` of `re.sub('[^\w]+', '_', name)` with no
flags on a Python 2 `str`: ASCII letters, digits and underscore. -/
def isWordChar (c : Char) : Bool :=
  (decide ('a' ≤ c) && decide (c ≤ 'z')) ||
    (decide ('A' ≤ c) && decide (c ≤ 'Z')) ||
    (decide ('0' ≤ c) && decide (c ≤ '9')) ||
    decide (c = '_')

/-- Fuelled core of `re.sub('[^\w]+', '_', _)`: each maximal run of
non-word characters is replaced by a single underscore.  The fuel
`cs.length` always suffices because every step consumes at least one
character. -/
def subNonWordAux : Nat → List Char → List Char
  | 0, _ => []
  | _, [] => []
  | fuel + 1, c :: cs =>
    if isWordChar c then c :: subNonWordAux fuel cs
    else '_' :: subNonWordAux fuel (cs.dropWhile fun d => !(isWordChar d))

/-- `re.sub('[^\w]+', '_', _)` (line 346). -/
def subNonWordChars (cs : List Char) : List Char :=
  subNonWordAux cs.length cs

/-- An independent, single-pass statement of the same substitution: a
word character is kept, and a non-word character becomes `'_'` unless
the previous character was already non-word (`inRun`). -/
def collapseRuns : Bool → List Char → List Char
  | _, [] => []
  | inRun, c :: cs =>
    if isWordChar c then c :: collapseRuns false cs
    else if inRun then collapseRuns true cs
    else '_' :: collapseRuns true cs

/-- Modelled from the spec's words: the accessor name is "the wire
`name` with all non-word characters replaced by underscore", read as
replacing each non-word character by its own underscore.  Used only to
compare the specification's description against the source's
run-collapsing substitution. -/
def specReplaceNonWord (s : String) : String :=
  String.mk (s.data.map fun c => if isWordChar c then c else '_')

theorem dropWhile_length_le (p : Char → Bool) (l : List Char) :
    (l.dropWhile p).length ≤ l.length := by
  induction l with
  | nil => simp [List.dropWhile]
  | cons c cs ih =>
    rw [List.dropWhile_cons]
    by_cases hp : p c = true
    · simp only [hp, if_true]
      exact Nat.le_succ_of_le ih
    · simp [hp]

theorem collapseRuns_true_dropWhile (cs : List Char) :
    collapseRuns true cs = collapseRuns false (cs.dropWhile fun d => !(isWordChar d)) := by
  induction cs with
  | nil => rfl
  | cons c cs ih =>
    rw [List.dropWhile_cons]
    by_cases hw : isWordChar c = true
    · simp only [hw, Bool.not_true, if_false]
      simp [collapseRuns, hw]
    · simp only [hw, Bool.not_false]
      have hw' : isWordChar c = false := by simpa using hw
      simp only [hw', Bool.not_false, if_true]
      rw [← ih]
      simp [collapseRuns, hw']

theorem subNonWordAux_eq_collapseRuns (fuel : Nat) (cs : List Char) (h : cs.length ≤ fuel) :
    subNonWordAux fuel cs = collapseRuns false cs := by
  induction fuel generalizing cs with
  | zero =>
    cases cs with
    | nil => rfl
    | cons c cs => simp at h
  | succ g ih =>
    cases cs with
    | nil => rfl
    | cons c cs =>
      simp only [subNonWordAux]
      by_cases hw : isWordChar c = true
      · rw [if_pos hw]
        rw [ih cs (by simp at h; omega)]
        simp [collapseRuns, hw]
      · have hw' : isWordChar c = false := by simpa using hw
        rw [if_neg hw]
        rw [ih _ (le_trans (dropWhile_length_le _ cs) (by simp at h; omega))]
        rw [← collapseRuns_true_dropWhile]
        simp [collapseRuns, hw']

/-- `subNonWordChars` agrees with the single-pass description. -/
theorem subNonWordChars_eq_collapseRuns (cs : List Char) :
    subNonWordChars cs = collapseRuns false cs :=
  subNonWordAux_eq_collapseRuns cs.length cs (Nat.le_refl _)

/-- The stored schema record: the wire `name` and the accessor
(`property`) name.  `property` is optional because `propname` may be
passed explicitly as `None` (in which case `dict.get` returns it
unchanged, bypassing the derived default). -/
structure EntityFieldSpec where
  name : String
  property : Option String
deriving DecidableEq

/-- The keyword arguments of `EntityField(...)` that the model reads.
The outer `Option` is presence in the keyword dictionary; the inner
`Option` is the Python value, which may itself be `None`. -/
structure EntityFieldKwargs where
  name : Option (Option String) := Option.none
  propname : Option (Option String) := Option.none
deriving DecidableEq

/-- `EntityField.__init__` (lines 342-346): `kwargs.get('name')`, a
`ValueError` when that is `None`, then
`kwargs.get('propname', re.sub('[^\w]+', '_', name))`. -/
def EntityField.init (_link : Bool) (kw : EntityFieldKwargs) : Except PyErr EntityFieldSpec :=
  match kw.name with
  | some (some n) =>
    Except.ok ⟨n,
      match kw.propname with
      | Option.none => some (String.mk (subNonWordChars n.data))
      | some p => p⟩
  | _ => Except.error PyErr.valueError

/-! ### Auxiliary getter lemmas -/

theorem integerGet_of_text {fld : StringEntityField} {obj : Entity} {s : String}
    (hg : fld.get obj = some s) :
    IntegerEntityField.get fld obj =
      match parseInt s.data with
      | some i => Except.ok (some i)
      | Option.none => Except.error PyErr.valueError := by
  unfold IntegerEntityField.get
  rw [hg]

theorem dateGet_of_text {fld : StringEntityField} {obj : Entity} {s : String}
    (hg : fld.get obj = some s) :
    DateEntityField.get fld obj =
      match parseDateChars s.data with
      | some d => Except.ok (some d)
      | Option.none => Except.error PyErr.valueError := by
  unfold DateEntityField.get
  rw [hg]

/-! ### Concrete instances used in the witness and counterexample
theorems -/

/-- A plain string descriptor named `"test"`, no decorator. -/
def demoFld : StringEntityField := ⟨"test", Option.none, false, MatchingRule.strict⟩

/-- The same descriptor with a decorator bound. -/
def decFld : StringEntityField := ⟨"test", Option.none, true, MatchingRule.strict⟩

/-- An owner with no fields. -/
def owner0 : Entity := ⟨[]⟩

/-- An owner with one backing `Field` named `"test"`. -/
def owner1 : Entity := ⟨[⟨"test", Option.none, MatchingRule.strict, "x"⟩]⟩

/-- The enumerated descriptor of the `maltego.link.show-label` link
field (lines 409-410): declared choices `[0, 1]`. -/
def enumDemo : EnumEntityField :=
  EnumEntityField.make "maltego.link.show-label" Option.none [PyVal.int 0, PyVal.int 1]
    false MatchingRule.loose

/-- A duration with maximal sub-day components. -/
def tsDemo : timespan := ⟨1, 86399, 999999⟩

/-- The 2024 leap day. -/
def dateDemo : PyDate := ⟨2024, 2, 29⟩

/-- Result of `decFld.set owner1 None`. -/
def c3Result : SetResult := ⟨⟨[]⟩, some (⟨[]⟩, Option.none)⟩

/-- Result of setting the integer `-5` on a fresh owner. -/
def c6IntResult : SetResult :=
  ⟨⟨[⟨"test", Option.none, MatchingRule.strict, "-5"⟩]⟩, Option.none⟩

/-- Result of setting the 2024 leap day on a fresh owner. -/
def c6DateResult : SetResult :=
  ⟨⟨[⟨"test", Option.none, MatchingRule.strict, "2024-02-29"⟩]⟩, Option.none⟩

/-- Result of setting the zero `timespan` on a fresh owner. -/
def c9Result : SetResult :=
  ⟨⟨[⟨"test", Option.none, MatchingRule.strict, "0d 0h0m0.000s"⟩]⟩, Option.none⟩

/-! ### The verified properties -/

/-- C1 (corrected).  `%03d` zero-pads but does not truncate, so the
5000-microsecond span prints as `"1d 2h3m4.5000s"`, not
`"1d 2h3m4.005s"`; and decoding `"1d 2h3m4.005s"` reads the fraction
`005` as 5 microseconds, not 5000.  Both halves of the claimed example
are therefore false on the code. -/
theorem c1_counterexample :
    timespan.str ⟨1, 7384, 5000⟩ = "1d 2h3m4.5000s" ∧
    timespan.str ⟨1, 7384, 5000⟩ ≠ "1d 2h3m4.005s" ∧
    timespan.fromstring "1d 2h3m4.005s" = some ⟨1, 7384, 5⟩ ∧
    timespan.fromstring "1d 2h3m4.005s" ≠ some ⟨1, 7384, 5000⟩ :=
  ⟨rfl, by decide, rfl, by decide⟩

/-- C1 (amended).  Encoding the duration of 1 day, 2 hours, 3 minutes,
4 seconds and 5000 microseconds yields `"1d 2h3m4.5000s"` (the
microsecond count is printed verbatim, zero-padded to at least three
digits), and decoding `"1d 2h3m4.005s"` reconstructs the duration of
1 day plus 7384 seconds plus 5 microseconds. -/
theorem c1_amended :
    timespan.str ⟨1, 7384, 5000⟩ = "1d 2h3m4.5000s" ∧
    timespan.fromstring "1d 2h3m4.005s" = some ⟨1, 7384, 5⟩ :=
  ⟨rfl, rfl⟩

/-- C2 (code bug).  Writing the absent value with no backing `Field`
is *not* a no-op: the `if/elif/else` of `StringEntityField.__set__`
sends the `(f = None, val = None)` case into `f.text = val`, which
raises `AttributeError`.  The spec's documented no-op is clearly the
intent; the fall-through is a slip in the code. -/
theorem c2_absent_write_raises (fld : StringEntityField) (obj : Entity)
    (h : fld.find obj = Option.none) :
    fld.set obj PyVal.none = Except.error PyErr.attributeError := by
  unfold StringEntityField.set StringEntityField.setOwner
  rw [h]
  rfl

/-- C2, witnessed at a concrete descriptor and an owner with no
fields. -/
theorem c2_witness :
    demoFld.find owner0 = Option.none ∧
    demoFld.set owner0 PyVal.none = Except.error PyErr.attributeError :=
  ⟨rfl, c2_absent_write_raises demoFld owner0 rfl⟩

/-- C3 (counterexample).  A removal write (backing `Field` present,
absent value) *does* invoke the bound decorator: the hook call at
lines 184-185 sits after the whole `if/elif/else`, not only after the
non-removal branches.  Here the backing field is removed and the hook
is still invoked, with `(owner, None)`. -/
theorem c3_counterexample :
    (decFld.find owner1).isSome = true ∧
    decFld.set owner1 PyVal.none = Except.ok ⟨⟨[]⟩, some (⟨[]⟩, Option.none)⟩ :=
  ⟨rfl, rfl⟩

/-- C3 (amended).  After *every* successful write — creation, update
or removal — a bound decorator hook is invoked with the owner and the
(coerced) written value; on a removal write that value is the absent
value. -/
theorem c3_amended (fld : StringEntityField) (obj : Entity) (val : PyVal) (r : SetResult)
    (hdec : fld.hasDecorator = true) (h : fld.set obj val = Except.ok r) :
    r.decoratorCall = some (r.owner, coerceVal val) := by
  unfold StringEntityField.set at h
  cases hso : fld.setOwner obj val with
  | error e =>
    rw [hso] at h
    exact absurd h (by simp)
  | ok o =>
    rw [hso] at h
    simp only [hdec, if_true, Except.ok.injEq] at h
    rw [← h]

/-- C3 (amended), witnessed on a removal write with a bound
decorator. -/
theorem c3_witness :
    decFld.hasDecorator = true ∧
    decFld.set owner1 PyVal.none = Except.ok c3Result ∧
    c3Result.decoratorCall = some (c3Result.owner, coerceVal PyVal.none) :=
  ⟨rfl, rfl, c3_amended decFld owner1 PyVal.none c3Result rfl rfl⟩

/-- C4 (confirmed).  Setting an enumerated field to a value whose
string form is not among the stored choices raises `ValueError`.  In
this embedding the owner is threaded functionally and an error result
carries no mutated owner; the definition of `EnumEntityField.set`
mirrors the source in raising before the delegated write, so a
rejected value leaves the owner's field collection — any prior backing
node and its text included — exactly as it was. -/
theorem c4_enum_rejection (fld : EnumEntityField) (obj : Entity) (val : PyVal)
    (h : stringifyPy val ∉ fld.choices) :
    fld.set obj val = Except.error PyErr.valueError := by
  unfold EnumEntityField.set
  rw [if_pos h]

/-- C4, witnessed on the `[0, 1]`-choice descriptor, a value outside
the choices, and an owner holding a prior backing node. -/
theorem c4_witness :
    stringifyPy (PyVal.str "red") ∉ enumDemo.choices ∧
    enumDemo.set owner1 (PyVal.str "red") = Except.error PyErr.valueError :=
  ⟨by decide, c4_enum_rejection enumDemo owner1 (PyVal.str "red") (by decide)⟩

/-- C5 (counterexample).  The color pattern does not accept *exactly*
`'#'` followed by six hexadecimal digits: since `$` also matches just
before one trailing newline, the eight-character string
`"#1a2b3c\n"` is accepted — the set succeeds (no `ValueError`) and
stores the newline-bearing text. -/
theorem c5_counterexample :
    ColorEntityField.set demoFld owner0 (PyVal.str "#1a2b3c\n") =
      Except.ok ⟨⟨[⟨"test", Option.none, MatchingRule.strict, "#1a2b3c\n"⟩]⟩, Option.none⟩ ∧
    "#1a2b3c\n" ≠ "#1a2b3c" ∧
    ("#1a2b3c\n").data.length = 8 :=
  ⟨rfl, by decide, rfl⟩

/-- C5 (amended).  Setting a color field to `"red"` raises
`ValueError` (leaving the owner untouched, the raise preceding any
write); setting it to `"#1a2b3c"` succeeds and a subsequent get
decodes back to exactly `"#1a2b3c"`; and the color pattern accepts
exactly the strings consisting of `'#'` followed by six hexadecimal
digits, optionally followed by one trailing newline. -/
theorem c5_amended :
    (∀ (fld : StringEntityField) (obj : Entity),
      ColorEntityField.set fld obj (PyVal.str "red") = Except.error PyErr.valueError) ∧
    (∀ (fld : StringEntityField) (obj : Entity), ∃ r,
      ColorEntityField.set fld obj (PyVal.str "#1a2b3c") = Except.ok r ∧
      fld.get r.owner = some "#1a2b3c") ∧
    (∀ cs : List Char, colorMatch cs = true ↔
      ∃ a b c d e f, (isHexDigit a = true ∧ isHexDigit b = true ∧ isHexDigit c = true ∧
        isHexDigit d = true ∧ isHexDigit e = true ∧ isHexDigit f = true) ∧
        (cs = '#' :: a :: b :: c :: d :: e :: [f] ∨
          cs = '#' :: a :: b :: c :: d :: e :: f :: ['\n'])) := by
  refine ⟨fun fld obj => rfl, fun fld obj => ?_, fun cs => ⟨?_, ?_⟩⟩
  · obtain ⟨r, h1, h2⟩ := set_some_ok fld obj (PyVal.str "#1a2b3c") "#1a2b3c" rfl
    refine ⟨r, ?_, h2⟩
    show RegexEntityField.set colorPattern fld obj (PyVal.str "#1a2b3c") = Except.ok r
    unfold RegexEntityField.set
    rw [if_neg (by decide)]
    exact h1
  · intro h
    rcases cs with _ | ⟨c0, _ | ⟨c1, _ | ⟨c2, _ | ⟨c3, _ | ⟨c4, _ | ⟨c5, _ | ⟨c6, rest⟩⟩⟩⟩⟩⟩⟩ <;>
      try exact (Bool.false_ne_true h).elim
    simp only [colorMatch, Bool.and_eq_true, Bool.or_eq_true, decide_eq_true_eq] at h
    obtain ⟨⟨⟨⟨⟨⟨⟨h0, h1⟩, h2⟩, h3⟩, h4⟩, h5⟩, h6⟩, hrest⟩ := h
    subst h0
    refine ⟨c1, c2, c3, c4, c5, c6, ⟨h1, h2, h3, h4, h5, h6⟩, ?_⟩
    rcases hrest with hh | hh
    · left
      rw [hh]
    · right
      rw [hh]
  · rintro ⟨a, b, c, d, e, f, ⟨h1, h2, h3, h4, h5, h6⟩, hcs | hcs⟩ <;> subst hcs <;>
      simp [colorMatch, h1, h2, h3, h4, h5, h6]

/-- C6 (confirmed).  Decode-after-encode round trips: a string value
(the empty string included) set on a string field reads back
unchanged; every integer (zero and negatives included) set on an
Integer field reads back equal; every valid date (leap days included)
set on a Date field reads back equal; and every normalised
non-negative duration decodes from its encoded string to an equal
duration. -/
theorem c6_roundtrip :
    (∀ (fld : StringEntityField) (obj : Entity) (s : String), ∃ r,
      fld.set obj (PyVal.str s) = Except.ok r ∧ fld.get r.owner = some s) ∧
    (∀ (fld : StringEntityField) (obj : Entity) (i : Int) (r : SetResult),
      IntegerEntityField.set fld obj (PyVal.int i) = Except.ok r →
      IntegerEntityField.get fld r.owner = Except.ok (some i)) ∧
    (∀ (fld : StringEntityField) (obj : Entity) (d : PyDate) (r : SetResult),
      PyDate.validB d = true →
      DateEntityField.set fld obj (PyVal.date d) = Except.ok r →
      DateEntityField.get fld r.owner = Except.ok (some d)) ∧
    (∀ t : timespan, 0 ≤ t.days → t.seconds < 86400 → t.microseconds < 1000000 →
      timespan.fromstring (timespan.str t) = some t) := by
  refine ⟨fun fld obj s => set_some_ok fld obj (PyVal.str s) s rfl, ?_, ?_, fromstring_str⟩
  · intro fld obj i r h
    have hset : IntegerEntityField.set fld obj (PyVal.int i) = fld.set obj (PyVal.int i) := rfl
    rw [hset] at h
    obtain ⟨r0, h0, hg⟩ :=
      set_some_ok fld obj (PyVal.int i) (String.mk (intDigits i)) rfl
    rw [h] at h0
    obtain rfl : r = r0 := by simpa using h0
    rw [integerGet_of_text hg]
    have hp : parseInt (String.mk (intDigits i)).data = some i := parseInt_intDigits i
    rw [hp]
  · intro fld obj d r hv h
    have hset : DateEntityField.set fld obj (PyVal.date d) = fld.set obj (PyVal.date d) := rfl
    rw [hset] at h
    obtain ⟨r0, h0, hg⟩ :=
      set_some_ok fld obj (PyVal.date d) (String.mk (dateChars d)) rfl
    rw [h] at h0
    obtain rfl : r = r0 := by simpa using h0
    rw [dateGet_of_text hg]
    have hp : parseDateChars (String.mk (dateChars d)).data = some d := parseDateChars_dateChars hv
    rw [hp]

/-- C6, witnessed at the empty string, the integer `-5`, the 2024 leap
day, and a duration with maximal sub-day components. -/
theorem c6_witness :
    (∃ r, demoFld.set owner0 (PyVal.str "") = Except.ok r ∧ demoFld.get r.owner = some "") ∧
    (IntegerEntityField.set demoFld owner0 (PyVal.int (-5)) = Except.ok c6IntResult ∧
      IntegerEntityField.get demoFld c6IntResult.owner = Except.ok (some (-5))) ∧
    (PyDate.validB dateDemo = true ∧
      DateEntityField.set demoFld owner0 (PyVal.date dateDemo) = Except.ok c6DateResult ∧
      DateEntityField.get demoFld c6DateResult.owner = Except.ok (some dateDemo)) ∧
    (0 ≤ tsDemo.days ∧ tsDemo.seconds < 86400 ∧ tsDemo.microseconds < 1000000 ∧
      timespan.fromstring (timespan.str tsDemo) = some tsDemo) := by
  refine ⟨c6_roundtrip.1 demoFld owner0 "", ⟨rfl, ?_⟩, ⟨rfl, rfl, ?_⟩,
    by decide, by decide, by decide, ?_⟩
  · exact c6_roundtrip.2.1 demoFld owner0 (-5) c6IntResult rfl
  · exact c6_roundtrip.2.2.1 demoFld owner0 dateDemo c6DateResult rfl rfl
  · exact c6_roundtrip.2.2.2 tsDemo (by decide) (by decide) (by decide)

/-- C7 (counterexample).  A keyword set in which `'name'` is present
but bound to `None` still fails construction: `kwargs.get('name')`
cannot distinguish a present `None` from an absent key, so presence of
the key alone does not guarantee success. -/
theorem c7_counterexample :
    (EntityFieldKwargs.mk (some Option.none) Option.none).name.isSome = true ∧
    EntityField.init false (EntityFieldKwargs.mk (some Option.none) Option.none) =
      Except.error PyErr.valueError :=
  ⟨rfl, rfl⟩

/-- C7 (amended).  `EntityField` construction fails with the
missing-required-field error exactly when `kwargs.get('name')` is
`None` — that is, when `'name'` is absent *or* explicitly bound to
`None`; when `'name'` is bound to an actual string, construction
succeeds and stores that string as the wire name. -/
theorem c7_amended (link : Bool) (kw : EntityFieldKwargs) :
    ((kw.name = Option.none ∨ kw.name = some Option.none) →
      EntityField.init link kw = Except.error PyErr.valueError) ∧
    (∀ s, kw.name = some (some s) →
      ∃ spec, EntityField.init link kw = Except.ok spec ∧ spec.name = s) := by
  constructor
  · rintro (h | h) <;> · unfold EntityField.init; rw [h]
  · intro s h
    unfold EntityField.init
    rw [h]
    exact ⟨_, rfl, rfl⟩

/-- C7 (amended), witnessed at a keyword set binding `'name'` to the
string `"person.name"`. -/
theorem c7_witness :
    (EntityFieldKwargs.mk (some (some "person.name")) Option.none).name =
      some (some "person.name") ∧
    ∃ spec, EntityField.init false (EntityFieldKwargs.mk (some (some "person.name")) Option.none) =
      Except.ok spec ∧ spec.name = "person.name" :=
  ⟨rfl, (c7_amended false (EntityFieldKwargs.mk (some (some "person.name")) Option.none)).2
    "person.name" rfl⟩

/-- C8 (counterexample).  `re.sub('[^\w]+', '_', _)` replaces each
*run* of non-word characters by a single underscore: for the wire name
`"a##b"` the derived accessor name is `"a_b"`, whereas replacing every
non-word character by its own underscore (the claim's reading) would
give `"a__b"`. -/
theorem c8_counterexample :
    EntityField.init false (EntityFieldKwargs.mk (some (some "a##b")) Option.none) =
      Except.ok ⟨"a##b", some "a_b"⟩ ∧
    specReplaceNonWord "a##b" = "a__b" ∧
    ("a_b" : String) ≠ "a__b" :=
  ⟨rfl, rfl, by decide⟩

/-- C8 (amended).  Without an explicit accessor name, the accessor
name is the wire `name` with each maximal run of consecutive non-word
characters replaced by a single underscore (stated via the independent
single-pass function `collapseRuns`); an explicit accessor name is
used unchanged. -/
theorem c8_amended (link : Bool) (n p : String) :
    EntityField.init link (EntityFieldKwargs.mk (some (some n)) Option.none) =
      Except.ok ⟨n, some (String.mk (collapseRuns false n.data))⟩ ∧
    EntityField.init link (EntityFieldKwargs.mk (some (some n)) (some (some p))) =
      Except.ok ⟨n, some p⟩ := by
  constructor
  · show (Except.ok ⟨n, some (String.mk (subNonWordChars n.data))⟩ :
        Except PyErr EntityFieldSpec) =
      Except.ok ⟨n, some (String.mk (collapseRuns false n.data))⟩
    rw [subNonWordChars_eq_collapseRuns]
  · rfl

/-- C9 (confirmed).  The guard of `TimeSpanEntityField.__set__`
rejects every plain `timedelta` with `TypeError` (a `timespan` is a
`timedelta`, so `not isinstance(val, timespan) or not isinstance(val,
timedelta)` is equivalent to `not isinstance(val, timespan)`); the
`val.__class__ is timedelta` conversion branch is consequently
unreachable, and a set succeeds only for `timespan` instances. -/
theorem c9_timespan_set :
    (∀ (fld : StringEntityField) (obj : Entity) (t : timespan),
      TimeSpanEntityField.set fld obj (PyVal.timedeltaVal t) = Except.error PyErr.typeError) ∧
    (∀ v : PyVal, (isTimespanInst v && isTimedeltaInst v) = true →
      classIsTimedelta v = false) ∧
    (∀ (fld : StringEntityField) (obj : Entity) (v : PyVal) (r : SetResult),
      TimeSpanEntityField.set fld obj v = Except.ok r → ∃ t, v = PyVal.timespanVal t) := by
  refine ⟨fun fld obj t => rfl, ?_, ?_⟩
  · intro v h
    cases v <;> simp_all [isTimespanInst, isTimedeltaInst, classIsTimedelta]
  · intro fld obj v r h
    cases v <;>
      first
        | exact ⟨_, rfl⟩
        | exact absurd h (by simp [TimeSpanEntityField.set, isTimespanInst, isTimedeltaInst])

/-- C9, witnessed at the zero span: as a plain `timedelta` the set
raises `TypeError`; as a `timespan` the guard passes, the conversion
test is false, and the set succeeds. -/
theorem c9_witness :
    TimeSpanEntityField.set demoFld owner0 (PyVal.timedeltaVal ⟨0, 0, 0⟩) =
      Except.error PyErr.typeError ∧
    ((isTimespanInst (PyVal.timespanVal ⟨0, 0, 0⟩) &&
        isTimedeltaInst (PyVal.timespanVal ⟨0, 0, 0⟩)) = true ∧
      classIsTimedelta (PyVal.timespanVal ⟨0, 0, 0⟩) = false) ∧
    (TimeSpanEntityField.set demoFld owner0 (PyVal.timespanVal ⟨0, 0, 0⟩) =
        Except.ok c9Result ∧
      ∃ t, PyVal.timespanVal (⟨0, 0, 0⟩ : timespan) = PyVal.timespanVal t) :=
  ⟨c9_timespan_set.1 demoFld owner0 ⟨0, 0, 0⟩,
    ⟨by decide, c9_timespan_set.2.1 (PyVal.timespanVal ⟨0, 0, 0⟩) (by decide)⟩,
    ⟨rfl, c9_timespan_set.2.2 demoFld owner0 (PyVal.timespanVal ⟨0, 0, 0⟩) c9Result rfl⟩⟩

/-- C10 (confirmed).  Enumerated membership is decided on string
forms: the declared choices are stringified once at construction, the
candidate is stringified before the membership test, and a set
succeeds exactly when the candidate's string form equals the string
form of some declared choice. -/
theorem c10_enum_stringform (name : String) (dn : Option String) (hasDec : Bool)
    (mr : String) (choices : List PyVal) (obj : Entity) (v : PyVal) :
    (stringifyPy v ∈ choices.map stringifyPy →
      ∃ r, (EnumEntityField.make name dn choices hasDec mr).set obj v = Except.ok r) ∧
    (stringifyPy v ∉ choices.map stringifyPy →
      (EnumEntityField.make name dn choices hasDec mr).set obj v =
        Except.error PyErr.valueError) := by
  constructor
  · intro h
    unfold EnumEntityField.set
    rw [if_neg (fun hn => hn h)]
    obtain ⟨r, h1, -⟩ :=
      set_some_ok (EnumEntityField.make name dn choices hasDec mr).toStringEntityField obj
        (PyVal.str (stringifyPy v)) (stringifyPy v) rfl
    exact ⟨r, h1⟩
  · intro h
    unfold EnumEntityField.set
    have h' : stringifyPy v ∉ (EnumEntityField.make name dn choices hasDec mr).choices := h
    rw [if_pos h']

/-- C10, witnessed on choices `[0, 1]`: the integer `0` and the string
`"0"` are both accepted, and the string `"2"` is rejected. -/
theorem c10_witness :
    (stringifyPy (PyVal.int 0) ∈ [PyVal.int 0, PyVal.int 1].map stringifyPy ∧
      ∃ r, enumDemo.set owner0 (PyVal.int 0) = Except.ok r) ∧
    (stringifyPy (PyVal.str "0") ∈ [PyVal.int 0, PyVal.int 1].map stringifyPy ∧
      ∃ r, enumDemo.set owner0 (PyVal.str "0") = Except.ok r) ∧
    (stringifyPy (PyVal.str "2") ∉ [PyVal.int 0, PyVal.int 1].map stringifyPy ∧
      enumDemo.set owner0 (PyVal.str "2") = Except.error PyErr.valueError) := by
  refine ⟨⟨by decide, ?_⟩, ⟨by decide, ?_⟩, ⟨by decide, ?_⟩⟩
  · exact (c10_enum_stringform "maltego.link.show-label" Option.none false MatchingRule.loose
      [PyVal.int 0, PyVal.int 1] owner0 (PyVal.int 0)).1 (by decide)
  · exact (c10_enum_stringform "maltego.link.show-label" Option.none false MatchingRule.loose
      [PyVal.int 0, PyVal.int 1] owner0 (PyVal.str "0")).1 (by decide)
  · exact (c10_enum_stringform "maltego.link.show-label" Option.none false MatchingRule.loose
      [PyVal.int 0, PyVal.int 1] owner0 (PyVal.str "2")).2 (by decide)

end Canari
